import Mathlib

/-
Verification of the uprotect-fetch core (session-cookie-authenticated, chunked
video download orchestrator). Shallow embedding of the TypeScript source:
JavaScript strings are modelled as lists of characters, JS objects used as
cookie jars as insertion-ordered association lists, timestamps (JS Date /
epoch milliseconds) as natural numbers, and effectful steps as pure functions
over explicit oracles for network and filesystem outcomes.
-/

namespace UProtect

/-- JS strings for the cookie-parsing layer are modelled as lists of
characters; this coercion lets examples be written with string literals. -/
def cs (s : String) : List Char := s.data

/-- A cookie jar: the source's `Cookies = Record<string, string>`, a JS object
mapping cookie names to values.  Modelled as an insertion-ordered association
list, matching JS object key order (assignment to an existing key keeps its
position, a new key is appended). -/
abbrev Cookies := List (List Char × List Char)

/-- JS `String.prototype.split` with a one-character separator: splits at every
occurrence of the separator, never merging adjacent separators, and yields
the empty string for empty segments (so the result is never the empty list). -/
def splitOnChar (sep : Char) : List Char → List (List Char)
  | [] => [[]]
  | c :: rest =>
    match splitOnChar sep rest with
    | [] => [[]]
    | fragment :: fragments =>
      if c = sep then [] :: fragment :: fragments
      else (c :: fragment) :: fragments

/-- Whitespace characters stripped by `String.prototype.trim` (restricted to
the ASCII whitespace relevant to cookie headers). -/
def isJsWhitespace (c : Char) : Bool :=
  c == ' ' || c == '\t' || c == '\n' || c == '\r'

/-- JS `String.prototype.trim`: drops whitespace from both ends. -/
def jsTrim (s : List Char) : List Char :=
  ((s.dropWhile isJsWhitespace).reverse.dropWhile isJsWhitespace).reverse

/-- JS object assignment `jar[k] = v`: overwrites the value in place when the
key exists, otherwise appends the new entry. -/
def jarSet (jar : Cookies) (k v : List Char) : Cookies :=
  match jar with
  | [] => [(k, v)]
  | (k0, v0) :: rest => if k0 = k then (k, v) :: rest else (k0, v0) :: jarSet rest k v

/-- Key lookup in a cookie jar. -/
def jarFind (jar : Cookies) (k : List Char) : Option (List Char) :=
  match jar with
  | [] => none
  | (k0, v0) :: rest => if k0 = k then some v0 else jarFind rest k

/-- Key membership in a cookie jar. -/
def jarHasKey (jar : Cookies) (k : List Char) : Bool :=
  match jar with
  | [] => false
  | (k0, _) :: rest => if k0 = k then true else jarHasKey rest k

/-- Source `safeUpdateCookie` (part_000 lines 105-116): splits the header on
`;` and rejects it when more than one fragment results; otherwise splits the
single fragment on `=`, takes the first two pieces as key and value (rejecting
when the value piece is missing, i.e. JS `undefined`), trims both, and assigns
into the jar.  The source mutates its `updatedCookies` argument; here the
updated jar is returned. -/
def safeUpdateCookie (cookie : List Char) (updatedCookies : Cookies) : Cookies :=
  let splitCookie := splitOnChar ';' cookie
  if splitCookie.length ≠ 1 then updatedCookies
  else
    match splitCookie.head? with
    | none => updatedCookies
    | some first =>
      match splitOnChar '=' first with
      | key :: value :: _ => jarSet updatedCookies (jsTrim key) (jsTrim value)
      | _ => updatedCookies

/-- Source `postWithCookies` cookie-merging tail (part_000 lines 93-100): the
response's `set-cookie` header is either absent (JS `undefined`) or a list of
header values; a copy of the caller's jar is taken and every header value is
folded in through `safeUpdateCookie`. -/
def mergeSetCookies (setCookieHeader : Option (List (List Char))) (cookies : Cookies) :
    Cookies :=
  match setCookieHeader with
  | none => cookies
  | some headerValues =>
    headerValues.foldl (fun jar cookie => safeUpdateCookie cookie jar) cookies

/-! ## Time arithmetic (date-fns, timestamps as epoch milliseconds) -/

/-- date-fns `differenceInMinutes(later, earlier)`: the number of full minutes
between the two timestamps, truncated.  The source only calls it with
`later > earlier` (inside the loop guard), where truncated JS division
coincides with natural-number division. -/
def differenceInMinutes (later earlier : ℕ) : ℕ := (later - earlier) / 60000

/-- date-fns `differenceInSeconds(later, earlier)`: full seconds, truncated. -/
def differenceInSeconds (later earlier : ℕ) : ℕ := (later - earlier) / 1000

/-- date-fns `add(t, maxMinuteDiff)` with `maxMinuteDiff = 60 minutes`. -/
def addSixtyMinutes (t : ℕ) : ℕ := t + 3600000

/-! ## The fetchVideo while-loop (part_000 lines 265-297)

The source keeps one mutable `currentStart`.  Each `while` iteration computes
`currentEnd` once (the full-hour cap, or `args.end` when at most 60 full
minutes remain), then runs the `for` loop over the cameras; crucially the
source advances `currentStart` by 60 minutes *inside* the camera loop
(line 297), once per camera. -/

/-- One pass of the camera `for` loop: each camera's export URL and filename
are built from the pair `(currentStart, currentEnd)` current at that point,
and `currentStart` is advanced by 60 minutes after each camera (source
line 297, before the skip check, so a skipped pair still advances it).
Returns the per-camera `(camera, windowStart, windowEnd)` triples together
with the final `currentStart`. -/
def cameraPass (cams : List ℕ) (currentEnd currentStart : ℕ) :
    List (ℕ × ℕ × ℕ) × ℕ :=
  match cams with
  | [] => ([], currentStart)
  | cam :: rest =>
    let next := cameraPass rest currentEnd (addSixtyMinutes currentStart)
    ((cam, currentStart, currentEnd) :: next.1, next.2)

/-- The `while (isBefore(currentStart, args.end))` loop, emitting the
`(camera, windowStart, windowEnd)` triple used for each export request.
`fuel` bounds the number of while iterations: the source loop is unbounded
(and in fact never terminates when `cams = []` and `currentStart < endT`,
since nothing then advances `currentStart`); every run that exits through the
loop guard is reproduced exactly by any sufficiently large fuel. -/
def fetchLoop (fuel : ℕ) (cams : List ℕ) (endT currentStart : ℕ) :
    List (ℕ × ℕ × ℕ) :=
  match fuel with
  | 0 => []
  | f + 1 =>
    if currentStart < endT then
      let diffMin := differenceInMinutes endT currentStart
      let currentEnd := if 60 < diffMin then addSixtyMinutes currentStart else endT
      let pass := cameraPass cams currentEnd currentStart
      pass.1 ++ fetchLoop f cams endT pass.2
    else []

/-- The window-planning part of the loop in isolation (part_000 lines 265-279
with the advance of line 297 taken once per window, which is exactly how the
source behaves when there is one camera): the sequence of
`(currentStart, currentEnd)` pairs computed at the top of each while
iteration. -/
def planWindows (currentStart endT : ℕ) : List (ℕ × ℕ) :=
  if _h : currentStart < endT then
    let diffMin := differenceInMinutes endT currentStart
    let currentEnd := if 60 < diffMin then addSixtyMinutes currentStart else endT
    (currentStart, currentEnd) :: planWindows (addSixtyMinutes currentStart) endT
  else []
termination_by endT - currentStart
decreasing_by simp only [addSixtyMinutes]; omega

/-! ## Status events (source `StatusType` / `Status` union) -/

/-- The source's discriminated `Status` union.  The error payload (a JS
`Error` object) is modelled by an opaque string. -/
inductive Status
  | waiting
  | downloading (progressPercent : Option String)
  | downloadThroughput (throughputString : String)
  | converting
  | error (err : String) (errorString : String)
deriving DecidableEq

/-! ## Per-chunk skip rule and request sequence (part_000 lines 299-320) -/

/-- Observable side effects of the pre-download portion of one
(camera, window) chunk. -/
inductive ChunkEff
  | logSkip
  | unlinkMp4
  | authPost
  | exportGet
deriving DecidableEq

/-- The skip check (lines 299-308) applied to the destination file's prior
state (`none` = the `.mp4` file does not exist, `some n` = it exists with
size `n` bytes).  Returns the effects performed, whether the chunk proceeds
(`false` = the source's `continue`), and the file's state afterwards. -/
def chunkPre (existing : Option ℕ) : List ChunkEff × Bool × Option ℕ :=
  match existing with
  | some size =>
    if size = 0 then ([ChunkEff.unlinkMp4], true, none)
    else ([ChunkEff.logSkip], false, some size)
  | none => ([], true, none)

/-- The effect sequence of one chunk up to and including its network calls:
when the skip check lets the chunk proceed, `getCookies` issues the
authentication POST (line 313) and `getBinaryDataWithCookies` issues the
export GET (line 315); when it does not, the source's `continue` skips both. -/
def chunkRequests (existing : Option ℕ) : List ChunkEff :=
  let pre := chunkPre existing
  if pre.2.1 then pre.1 ++ [ChunkEff.authPost, ChunkEff.exportGet] else pre.1

/-! ## Streaming downloader events (getBinaryDataWithCookies, lines 128-198) -/

/-- How the streamed transfer ends: the write stream finishes, the write
stream errors, or the response stream errors. -/
inductive StreamOutcome
  | finished
  | writerError (e : String)
  | responseError (e : String)

/-- Result of one `getBinaryDataWithCookies` call: how many times `axios.get`
was invoked (the source has a single call site, line 148, and never re-issues
it), the status events delivered to the callback in order, and the settled
promise. -/
structure DlRun where
  getInvocations : ℕ
  events : List Status
  result : Except String Unit

/-- One `getBinaryDataWithCookies` run: a `Waiting` status precedes the GET;
each progress tick emits a `Downloading` status (`ticks` carries the formatted
`progressPercent` values observed); then the writer's `finish` handler emits
`Downloading 100%` and resolves, while either error handler emits an `Error`
status with the corresponding message and rejects with the underlying error
(lines 173-197). -/
def getBinaryDataRun (filename : String) (ticks : List (Option String))
    (outcome : StreamOutcome) : DlRun :=
  let pre := Status.waiting :: ticks.map Status.downloading
  match outcome with
  | StreamOutcome.finished =>
    { getInvocations := 1
      events := pre ++ [Status.downloading (some ("100%"))]
      result := Except.ok () }
  | StreamOutcome.writerError e =>
    { getInvocations := 1
      events := pre ++ [Status.error e (("Error writing to the file ") ++ filename)]
      result := Except.error e }
  | StreamOutcome.responseError e =>
    { getInvocations := 1
      events := pre ++ [Status.error e ("Error reading the response from the server")]
      result := Except.error e }

/-! ## Conversion step (part_000 lines 342-349 and convertToMkv, 225-246) -/

/-- The post-download conversion step of one chunk.  When `mp4Flag` is true
nothing happens.  Otherwise a `Converting` status is emitted, `convertToMkv`
runs (its promise outcome is the `remuxResult` oracle: ffmpeg is external),
and only on success does `fs.unlinkSync(mp4Filename)` run; on failure the
awaited rejection propagates out of `fetchVideo` (there is no catch), so the
source file is never deleted.  Returns (events, outcome, whether the `.mp4`
source file was deleted). -/
def convertStep (mp4Flag : Bool) (remuxResult : Except String Unit) :
    List Status × Except String Unit × Bool :=
  if mp4Flag then ([], Except.ok (), false)
  else
    match remuxResult with
    | Except.ok _ => ([Status.converting], Except.ok (), true)
    | Except.error e => ([Status.converting], Except.error e, false)

/-! ## HTTP retry policy (part_000 lines 74-81)

The source installs `axios-retry` on the shared axios instance with
`retries: 3` and a custom `retryCondition`.  Per the library's semantics,
`retries` is the number of retries after the initial attempt (so up to 4
attempts in total), the condition is consulted on each failed attempt, and
the default `retryDelay` is 0 (no delay between attempts). -/

/-- Outcome of a single HTTP attempt: success, or a failure carrying
`error.response` (`none` = network-level error with no response,
`some status` = a response whose status code made axios reject). -/
inductive HttpOutcome
  | success
  | failure (response : Option ℕ)
deriving DecidableEq

/-- The source's `retryCondition` (lines 78-80):
`error.response == null || error.response.status >= 400`. -/
def retryCondition (response : Option ℕ) : Bool :=
  match response with
  | none => true
  | some status => 400 ≤ status

/-- Whether an attempt outcome is a failure the source's condition retries. -/
def isRetryableFailure : HttpOutcome → Bool
  | HttpOutcome.success => false
  | HttpOutcome.failure r => retryCondition r

/-- The axios-retry loop: attempt `idx` (outcomes are an oracle indexed by
attempt number); on a failure satisfying the retry condition, retry while
retries remain.  Returns (total attempts made, final outcome). -/
def runRetries (outcomes : ℕ → HttpOutcome) : ℕ → ℕ → ℕ × HttpOutcome
  | retriesLeft, idx =>
    let o := outcomes idx
    if isRetryableFailure o then
      match retriesLeft with
      | 0 => (idx + 1, o)
      | n + 1 => runRetries outcomes n (idx + 1)
    else (idx + 1, o)

/-- One request through the HTTP layer as configured by the source:
`retries: 3`. -/
def requestWithRetries (outcomes : ℕ → HttpOutcome) : ℕ × HttpOutcome :=
  runRetries outcomes 3 0

/-! ## Throughput formatting (part_000 lines 322-333) -/

/-- JS `Math.round` on a finite value: round half toward positive infinity. -/
def jsRound (q : ℚ) : ℤ := ⌊q + 1 / 2⌋

/-- The throughput string (lines 327-333): megabytes when the bytes-per-second
value strictly exceeds 1,000,000, whole bytes otherwise, both rounded.  The
throughput itself is `mp4FileStats.size / diffInSeconds`, an exact value at
the integer boundary points at issue (they are exactly representable as JS
doubles). -/
def formatThroughput (throughput : ℚ) : String :=
  if 1000000 < throughput then toString (jsRound (throughput / 1000000)) ++ (" MB")
  else toString (jsRound throughput) ++ (" B")

/-! ## Helper lemmas -/

/-- JS `split` never yields an empty array. -/
theorem splitOnChar_ne_nil (sep : Char) : ∀ s : List Char, splitOnChar sep s ≠ []
  | [] => by simp [splitOnChar]
  | c :: rest => by
    simp only [splitOnChar]
    cases h2 : splitOnChar sep rest with
    | nil => simp
    | cons a t => by_cases hc : c = sep <;> simp [hc]

/-- Splitting a string that does not contain the separator yields the string
itself as the single fragment. -/
theorem splitOnChar_of_not_mem (sep : Char) :
    ∀ s : List Char, sep ∉ s → splitOnChar sep s = [s]
  | [], _ => rfl
  | c :: rest, h => by
    have hc : ¬ c = sep := by intro hcs; exact h (by simp [hcs])
    have ih := splitOnChar_of_not_mem sep rest (fun hm => h (List.mem_cons_of_mem c hm))
    simp [splitOnChar, ih, hc]

/-- Splitting peels off a separator-free leading fragment. -/
theorem splitOnChar_append_cons (sep : Char) :
    ∀ (pre rest : List Char), sep ∉ pre →
      splitOnChar sep (pre ++ sep :: rest) = pre :: splitOnChar sep rest
  | [], rest, _ => by
    simp only [List.nil_append, splitOnChar]
    cases h2 : splitOnChar sep rest with
    | nil => exact absurd h2 (splitOnChar_ne_nil sep rest)
    | cons a t => simp
  | c :: pre, rest, h => by
    have hc : ¬ c = sep := by intro hcs; exact h (by simp [hcs])
    have ih := splitOnChar_append_cons sep pre rest (fun hm => h (List.mem_cons_of_mem c hm))
    simp [splitOnChar, ih, hc]

/-- Assignment followed by lookup of the same key finds the assigned value. -/
theorem jarFind_jarSet : ∀ (jar : Cookies) (k v : List Char),
    jarFind (jarSet jar k v) k = some v
  | [], k, v => by simp [jarSet, jarFind]
  | (k0, v0) :: rest, k, v => by
    by_cases h : k0 = k
    · simp [jarSet, jarFind, h]
    · simp [jarSet, jarFind, h, jarFind_jarSet rest k v]

/-- Assignment never removes a key from the jar. -/
theorem jarHasKey_jarSet :
    ∀ (jar : Cookies) (k0 v k : List Char),
      jarHasKey jar k = true → jarHasKey (jarSet jar k0 v) k = true
  | [], k0, v, k, h => by simp [jarHasKey] at h
  | (k1, v1) :: rest, k0, v, k, h => by
    by_cases h10 : k1 = k0
    · by_cases hk : k0 = k
      · simp [jarSet, jarHasKey, h10, hk]
      · have h1k : ¬ k1 = k := by rw [h10]; exact hk
        have h2 : jarHasKey rest k = true := by simpa [jarHasKey, h1k] using h
        simp [jarSet, jarHasKey, h10, hk, h2]
    · by_cases h1k : k1 = k
      · have hk0 : ¬ k = k0 := fun he => h10 (h1k.trans he)
        simp [jarSet, jarHasKey, h10, h1k, hk0]
      · have h2 : jarHasKey rest k = true := by simpa [jarHasKey, h1k] using h
        simp [jarSet, jarHasKey, h10, h1k, jarHasKey_jarSet rest k0 v k h2]

/-- `safeUpdateCookie` never removes a key from the jar (every branch returns
the jar unchanged or performs a single assignment). -/
theorem safeUpdateCookie_hasKey (c : List Char) (jar : Cookies) (k : List Char)
    (h : jarHasKey jar k = true) :
    jarHasKey (safeUpdateCookie c jar) k = true := by
  simp only [safeUpdateCookie]
  split
  · exact h
  · split
    · exact h
    · split
      · exact jarHasKey_jarSet jar _ _ k h
      · exact h

/-- Folding any list of header values into the jar never removes a key. -/
theorem mergeSetCookies_hasKey :
    ∀ (headerValues : List (List Char)) (jar : Cookies) (k : List Char),
      jarHasKey jar k = true →
      jarHasKey
        (List.foldl (fun jar cookie => safeUpdateCookie cookie jar) jar headerValues)
        k = true
  | [], _, _, h => h
  | c :: rest, jar, k, h =>
    mergeSetCookies_hasKey rest (safeUpdateCookie c jar) k (safeUpdateCookie_hasKey c jar k h)

/-- Behaviour of the axios-retry loop: at least one attempt, at most
`retriesLeft + 1` attempts, every non-final attempt failed retryably, and a
stop before exhausting the budget means the last attempt was not a retryable
failure. -/
theorem runRetries_spec (outcomes : ℕ → HttpOutcome) :
    ∀ r idx : ℕ,
      idx + 1 ≤ (runRetries outcomes r idx).1 ∧
      (runRetries outcomes r idx).1 ≤ idx + r + 1 ∧
      (∀ i, idx ≤ i → i + 1 < (runRetries outcomes r idx).1 →
        isRetryableFailure (outcomes i) = true) ∧
      ((runRetries outcomes r idx).1 < idx + r + 1 →
        isRetryableFailure (outcomes ((runRetries outcomes r idx).1 - 1)) = false)
  | 0, idx => by
    have h1 : runRetries outcomes 0 idx = (idx + 1, outcomes idx) := by
      by_cases hb : isRetryableFailure (outcomes idx) = true <;> simp [runRetries, hb]
    rw [h1]
    refine ⟨le_refl _, le_refl _, ?_, ?_⟩
    · intro i hi hlt; omega
    · intro hlt; omega
  | r + 1, idx => by
    by_cases hb : isRetryableFailure (outcomes idx) = true
    · have heq : runRetries outcomes (r + 1) idx = runRetries outcomes r (idx + 1) := by
        simp [runRetries, hb]
      obtain ⟨ih1, ih2, ih3, ih4⟩ := runRetries_spec outcomes r (idx + 1)
      rw [heq]
      refine ⟨by omega, by omega, ?_, ?_⟩
      · intro i hi hlt
        rcases Nat.eq_or_lt_of_le hi with hEq | hLt
        · rw [← hEq]; exact hb
        · exact ih3 i hLt hlt
      · intro hlt; exact ih4 (by omega)
    · have heq : runRetries outcomes (r + 1) idx = (idx + 1, outcomes idx) := by
        simp [runRetries, hb]
      rw [heq]
      refine ⟨le_refl _, by omega, ?_, ?_⟩
      · intro i hi hlt; omega
      · intro _
        simp only [Nat.add_sub_cancel]
        exact Bool.not_eq_true _ ▸ Bool.of_not_eq_true hb

/-! ## Claim theorems -/

/-- C1: the claim says cameras are the inner loop — every camera is downloaded
for a window before the window start advances, all cameras of one window
iteration share the same `(windowStart, windowEnd)` pair, and the windows
cover the requested range exactly once regardless of the camera count.  The
code instead advances `currentStart` inside the camera loop (line 297): with
two cameras over a two-hour range, camera `1`'s only export request uses the
degenerate window `(3600000, 3600000)` (start = end) and camera `0` never
covers `[3600000, 7200000)`. -/
theorem C1_window_advance_bug :
    fetchLoop 4 [0, 1] 7200000 0 = [(0, 0, 3600000), (1, 3600000, 3600000)] := by
  decide

/-- C2: the claim says planned windows are contiguous, non-overlapping, cover
`[start, end)` exactly once, and each lasts at most 60 minutes.  Because the
code compares truncated full minutes (`differenceInMinutes > 60`), a
requested range of 60.5 minutes produces the window `(0, 3630000)` of 60.5
minutes (exceeding 60) and then, since `currentStart` only advanced by 60
minutes, the overlapping window `(3600000, 3630000)`, double-covering
`[3600000, 3630000)`. -/
theorem C2_planner_bug :
    planWindows 0 3630000 = [(0, 3630000), (3600000, 3630000)] := by
  rw [planWindows]
  norm_num [differenceInMinutes, addSixtyMinutes]
  rw [planWindows]
  norm_num [differenceInMinutes, addSixtyMinutes]
  rw [planWindows]
  norm_num

/-- C3: for every (camera, window) pair, a pre-existing destination `.mp4`
file of non-zero size makes the pair be skipped entirely — only the skip is
logged, no authentication POST and no export GET is issued, and the file is
left unchanged — while a pre-existing zero-size file is deleted and the
download proceeds exactly as if the file had been absent. -/
theorem C3_skip_rule :
    (∀ size : ℕ, size ≠ 0 →
      chunkRequests (some size) = [ChunkEff.logSkip] ∧
      ChunkEff.authPost ∉ chunkRequests (some size) ∧
      ChunkEff.exportGet ∉ chunkRequests (some size) ∧
      (chunkPre (some size)).2.2 = some size) ∧
    (chunkRequests (some 0) = ChunkEff.unlinkMp4 :: chunkRequests none ∧
      (chunkPre (some 0)).2.2 = (chunkPre none).2.2) := by
  constructor
  · intro size hsz
    refine ⟨?_, ?_, ?_, ?_⟩ <;> simp [chunkRequests, chunkPre, hsz]
  · exact ⟨rfl, rfl⟩

/-- Witness for C3 at the concrete size 5. -/
theorem C3_skip_rule_witness :
    (5 : ℕ) ≠ 0 ∧ chunkRequests (some 5) = [ChunkEff.logSkip] :=
  ⟨by decide, (C3_skip_rule.1 5 (by decide)).1⟩

/-- C4: cookie merging is additive and idempotent on rejected headers —
merging a response with no `Set-Cookie` header returns the jar unchanged,
merging the attribute-bearing header `a=1; Path=/` returns the jar unchanged,
merging `a=1` maps `a` to `1`, and the merge never removes a key that was
present in the caller's jar (the source folds into a fresh copy and only ever
assigns). -/
theorem C4_cookie_merge :
    (∀ jar : Cookies, mergeSetCookies none jar = jar) ∧
    (∀ jar : Cookies, safeUpdateCookie (cs ("a=1; Path=/")) jar = jar) ∧
    (∀ jar : Cookies, jarFind (safeUpdateCookie (cs ("a=1")) jar) (cs ("a")) =
      some (cs ("1"))) ∧
    (∀ (hdr : Option (List (List Char))) (jar : Cookies) (k : List Char),
      jarHasKey jar k = true → jarHasKey (mergeSetCookies hdr jar) k = true) := by
  refine ⟨fun jar => rfl, fun jar => rfl, ?_, ?_⟩
  · intro jar
    have hupd : safeUpdateCookie (cs ("a=1")) jar = jarSet jar (cs ("a")) (cs ("1")) := rfl
    rw [hupd]
    exact jarFind_jarSet jar _ _
  · intro hdr jar k h
    match hdr with
    | none => exact h
    | some headerValues => exact mergeSetCookies_hasKey headerValues jar k h

/-- Witness for C4 at a concrete jar containing key `x`. -/
theorem C4_cookie_merge_witness :
    jarHasKey ([(cs ("x"), cs ("0"))] : Cookies) (cs ("x")) = true ∧
      jarHasKey (mergeSetCookies (some [cs ("a=1")]) [(cs ("x"), cs ("0"))]) (cs ("x")) =
        true :=
  ⟨by decide,
    C4_cookie_merge.2.2.2 (some [cs ("a=1")]) [(cs ("x"), cs ("0"))] (cs ("x")) (by decide)⟩

/-- C5: when the output is converted (`mp4` flag false), a failing remux
leaves the input `.mp4` file undeleted and propagates the error (aborting the
job), and the `.mp4` source is deleted only when the remux succeeded. -/
theorem C5_remux_failure_preserves_source :
    (∀ e : String,
      convertStep false (Except.error e) = ([Status.converting], Except.error e, false)) ∧
    (∀ r : Except String Unit, (convertStep false r).2.2 = true → r = Except.ok ()) := by
  constructor
  · intro e; rfl
  · intro r hdel
    match r with
    | Except.ok _ => rfl
    | Except.error e => simp [convertStep] at hdel

/-- Witness for C5 at the successful remux outcome. -/
theorem C5_remux_witness :
    (convertStep false (Except.ok ())).2.2 = true ∧
      (Except.ok () : Except String Unit) = Except.ok () :=
  ⟨rfl, C5_remux_failure_preserves_source.2 (Except.ok ()) rfl⟩

/-- C6: a write-stream error makes the status callback receive an `Error`
event whose message is `Error writing to the file ` followed by the
destination path, after which the promise rejects with the underlying error;
a response-stream error produces an `Error` event with message
`Error reading the response from the server` and the promise rejects; in
every case the downloader invokes `axios.get` exactly once (no internal
retry of a stream failure). -/
theorem C6_stream_error_events :
    ∀ (filename : String) (ticks : List (Option String)) (e : String),
      (getBinaryDataRun filename ticks (StreamOutcome.writerError e)).events =
        (Status.waiting :: ticks.map Status.downloading) ++
          [Status.error e (("Error writing to the file ") ++ filename)] ∧
      (getBinaryDataRun filename ticks (StreamOutcome.writerError e)).result =
        Except.error e ∧
      (getBinaryDataRun filename ticks (StreamOutcome.responseError e)).events =
        (Status.waiting :: ticks.map Status.downloading) ++
          [Status.error e ("Error reading the response from the server")] ∧
      (getBinaryDataRun filename ticks (StreamOutcome.responseError e)).result =
        Except.error e ∧
      (∀ o : StreamOutcome, (getBinaryDataRun filename ticks o).getInvocations = 1) := by
  intro filename ticks e
  refine ⟨rfl, rfl, rfl, rfl, ?_⟩
  intro o
  cases o <;> rfl

/-- C7 counterexample: the claim says at most 3 attempts in total, but the
source's `axios-retry` configuration (`retries: 3` = three retries after the
initial attempt) makes a request whose every attempt yields status 500 be
attempted 4 times. -/
theorem C7_attempts_counterexample :
    (requestWithRetries (fun _ => HttpOutcome.failure (some 500))).1 = 4 := by
  decide

/-- C7 (amended): every request is attempted at most 4 times in total (one
initial attempt plus up to 3 retries), an additional attempt follows exactly
a previous attempt that raised a network-level failure or returned status
≥ 400 while retries remained, and stopping early means the last attempt was
not such a failure. -/
theorem C7_retry_policy :
    ∀ outcomes : ℕ → HttpOutcome,
      1 ≤ (requestWithRetries outcomes).1 ∧
      (requestWithRetries outcomes).1 ≤ 4 ∧
      (∀ i, i + 1 < (requestWithRetries outcomes).1 →
        isRetryableFailure (outcomes i) = true) ∧
      ((requestWithRetries outcomes).1 < 4 →
        isRetryableFailure (outcomes ((requestWithRetries outcomes).1 - 1)) = false) := by
  intro outcomes
  obtain ⟨h1, h2, h3, h4⟩ := runRetries_spec outcomes 3 0
  exact ⟨h1, h2, fun i hi => h3 i (Nat.zero_le i) hi, h4⟩

/-- Witness for C7 with every attempt failing with status 500: the first
attempt is followed by another, and its outcome satisfied the retry
condition. -/
theorem C7_retry_policy_witness :
    isRetryableFailure ((fun _ => HttpOutcome.failure (some 500)) 0) = true :=
  (C7_retry_policy (fun _ => HttpOutcome.failure (some 500))).2.2.1 0 (by decide)

/-- C8: throughput strictly above 1,000,000 bytes/second is formatted as the
megabyte count (value divided by 1,000,000, rounded to the nearest integer)
followed by ` MB`; throughput of 1,000,000 or less as the rounded byte count
followed by ` B`; in particular exactly 1,000,000 gives `1000000 B` and
1,000,001 gives `1 MB`. -/
theorem C8_throughput_format :
    (∀ q : ℚ, 1000000 < q →
      formatThroughput q = toString (round (q / 1000000)) ++ (" MB")) ∧
    (∀ q : ℚ, q ≤ 1000000 →
      formatThroughput q = toString (round q) ++ (" B")) ∧
    formatThroughput 1000000 = ("1000000 B") ∧
    formatThroughput 1000001 = ("1 MB") := by
  have hgt : ∀ q : ℚ, 1000000 < q →
      formatThroughput q = toString (round (q / 1000000)) ++ (" MB") := by
    intro q hq
    simp only [formatThroughput, jsRound]
    rw [if_pos hq, round_eq]
  have hle : ∀ q : ℚ, q ≤ 1000000 →
      formatThroughput q = toString (round q) ++ (" B") := by
    intro q hq
    simp only [formatThroughput, jsRound]
    rw [if_neg (not_lt.mpr hq), round_eq]
  refine ⟨hgt, hle, ?_, ?_⟩
  · rw [hle 1000000 le_rfl]
    have hr : round (1000000 : ℚ) = 1000000 := by
      rw [round_eq, Int.floor_eq_iff]
      constructor <;> norm_num
    rw [hr]
    rfl
  · rw [hgt 1000001 (by norm_num)]
    have hr : round ((1000001 : ℚ) / 1000000) = 1 := by
      rw [round_eq, Int.floor_eq_iff]
      constructor <;> norm_num
    rw [hr]
    rfl

/-- Witness for C8 at the concrete throughput 2,500,000 bytes/second. -/
theorem C8_throughput_format_witness :
    (1000000 : ℚ) < 2500000 ∧
      formatThroughput 2500000 = toString (round ((2500000 : ℚ) / 1000000)) ++ (" MB") :=
  ⟨by norm_num, C8_throughput_format.1 2500000 (by norm_num)⟩

/-- C9 counterexample: the claim says the throughput divisor — elapsed time
truncated to whole seconds — is never zero; but a download that starts at
epoch millisecond 0 and finishes at millisecond 500 (under one second) has
divisor 0, so `mp4FileStats.size / diffInSeconds` is a division by zero. -/
theorem C9_zero_divisor : differenceInSeconds 500 0 = 0 := by decide

/-- C9 (amended): the truncated-seconds divisor is nonzero exactly when at
least one full second (1000 ms) elapsed between download start and end; for
downloads finishing in under one second it is zero and the throughput
division divides by zero. -/
theorem C9_divisor_elapsed :
    ∀ startMs endMs : ℕ,
      differenceInSeconds endMs startMs ≠ 0 ↔ 1000 ≤ endMs - startMs := by
  intro startMs endMs
  unfold differenceInSeconds
  omega

/-- C10: a `Set-Cookie` value without `;`-attributes but with more than one
`=` maps the key to only the text between the first and second `=`, silently
discarding the remainder, and accepted keys and values are trimmed of
surrounding whitespace before being stored (shown concretely on
`token=abc=def` and generally for any `key=value=rest` with separator-free
`key` and `value`). -/
theorem C10_extra_equals_discarded :
    (∀ jar : Cookies,
      safeUpdateCookie (cs ("token=abc=def")) jar =
        jarSet jar (cs ("token")) (cs ("abc"))) ∧
    (∀ (key value rest : List Char) (jar : Cookies),
      ';' ∉ key → ';' ∉ value → ';' ∉ rest → '=' ∉ key → '=' ∉ value →
      safeUpdateCookie (key ++ '=' :: (value ++ '=' :: rest)) jar =
        jarSet jar (jsTrim key) (jsTrim value)) := by
  constructor
  · intro jar; rfl
  · intro key value rest jar hsk hsv hsr hek hev
    have hsemi : ';' ∉ key ++ '=' :: (value ++ '=' :: rest) := by
      intro hmem
      rcases List.mem_append.mp hmem with h | h
      · exact hsk h
      · rcases List.mem_cons.mp h with h | h
        · exact absurd h (by decide)
        · rcases List.mem_append.mp h with h | h
          · exact hsv h
          · rcases List.mem_cons.mp h with h | h
            · exact absurd h (by decide)
            · exact hsr h
    have h1 := splitOnChar_of_not_mem ';' (key ++ '=' :: (value ++ '=' :: rest)) hsemi
    have h2 := splitOnChar_append_cons '=' key (value ++ '=' :: rest) hek
    have h3 := splitOnChar_append_cons '=' value rest hev
    simp [safeUpdateCookie, h1]
    rw [h2, h3]

/-- Witness for C10 on the one-character fragments `t`, `v`, `r`. -/
theorem C10_extra_equals_witness :
    (';' ∉ [Char.ofNat 116]) ∧ ('=' ∉ [Char.ofNat 116]) ∧
      safeUpdateCookie
        ([Char.ofNat 116] ++ '=' :: ([Char.ofNat 118] ++ '=' :: [Char.ofNat 114])) [] =
        jarSet [] (jsTrim [Char.ofNat 116]) (jsTrim [Char.ofNat 118]) :=
  ⟨by decide, by decide,
    C10_extra_equals_discarded.2 [Char.ofNat 116] [Char.ofNat 118] [Char.ofNat 114] []
      (by decide) (by decide) (by decide) (by decide) (by decide)⟩

end UProtect
